import Mathlib

/-!
Verification of the rifid dynamic-questionnaire engine.

Shallow embedding of the survey subsystem:
* `survey/models.py` (Template, TemplateField, SurveyPeriod, SurveyDistribution,
  AdditionalField and their `save` overrides, `Template.CustomForm.save`,
  `Template.build_django_form`),
* `survey/services.py` (`calculate_end_date`, `create_survey_distribution`),
* `survey/management/commands/process_recurring_surveys.py`
  (`Command.should_create_new_period`, `Command.handle`),
* `api/utils.py` (`next_available_at`, `is_available_now`),
* `survey/views.py` (`template_field_delete`).

Conventions: Django rows become Lean structures, querysets become lists,
machine time becomes `Int` (days for `date` arithmetic), Python `None`
becomes `Option.none`, and each `save` override becomes an explicit state
transition on a list of rows.
-/

namespace Rifid

/-! ### Frequency constants (survey/models.py, `Template.FREQ_*`) -/

def FREQ_ONCE : String := "once"

def FREQ_WEEKLY : String := "weekly"

def FREQ_MONTHLY : String := "monthly"

def FREQ_QUARTERLY : String := "quarterly"

def FREQ_YEARLY : String := "yearly"

/-- `Template.FOOD`, the only template type in the source. -/
def FOOD : String := "food"

/-- `TemplateField.FORM`, the nested-form field type. -/
def FORM : String := "form"

/-! ### Dates

A Python `datetime.date` is embedded as its proleptic-Gregorian ordinal
(`date.toordinal()`, an integer; ordering and `timedelta(days=n)` arithmetic
are ordinal ordering and addition) together with the `day` and `month`
attributes that `should_create_new_period` reads off `today`.  The weekday
is derived from the ordinal exactly as in Python: ordinal 1 (0001-01-01)
is a Monday and `date.weekday()` numbers Monday as 0. -/

structure PyDate where
  ord : Int
  day : Int
  month : Int
deriving DecidableEq, Repr

/-- Python `date.weekday()`: Monday = 0 … Sunday = 6, with ordinal 1 a Monday. -/
def pyWeekday (d : PyDate) : Int := (d.ord - 1) % 7

/-! ### Availability calculator (api/utils.py) -/

/-- `FREQ_TO_DELTA` lookup (api/utils.py lines 5-10); `none` when the key is
absent, mirroring `dict.get` with its default handled at the call site.
Deltas are in days. -/
def FREQ_TO_DELTA (freq : String) : Option Int :=
  if freq = "weekly" then some 7
  else if freq = "monthly" then some 30
  else if freq = "quarterly" then some 90
  else if freq = "yearly" then some 365
  else none

/-- `next_available_at(last_dt, freq)` (api/utils.py lines 12-15).
`last_dt` and the result are day ordinals; `now` is passed explicitly in
place of `timezone.now()`.  `freq or "monthly"` maps the empty string to
`"monthly"`; `.get(…, timedelta(days=30))` supplies the 30-day default. -/
def next_available_at (last_dt : Option Int) (freq : String) (now : Int) : Int :=
  match last_dt with
  | none => now
  | some t => t + (FREQ_TO_DELTA (if freq = "" then "monthly" else freq)).getD 30

/-- `is_available_now(last_dt, freq)` (api/utils.py lines 17-18). -/
def is_available_now (last_dt : Option Int) (freq : String) (now : Int) : Bool :=
  last_dt.isNone || decide (now ≥ next_available_at last_dt freq now)

/-! ### Period end dates (survey/services.py) -/

/-- `calculate_end_date(start_date, frequency)` (survey/services.py lines 22-38). -/
def calculate_end_date (start_date : Int) (frequency : String) : Int :=
  if frequency = FREQ_ONCE then start_date + 30
  else if frequency = FREQ_WEEKLY then start_date + 7
  else if frequency = FREQ_MONTHLY then start_date + 30
  else if frequency = FREQ_QUARTERLY then start_date + 90
  else if frequency = FREQ_YEARLY then start_date + 365
  else start_date + 30

/-! ### Survey periods (survey/models.py, `SurveyPeriod`) -/

/-- One `SurveyPeriod` row.  `survey` and `school` are foreign-key ids
(`school = none` for a global period); dates are day ordinals. -/
structure SurveyPeriod where
  pk : Nat
  survey : Nat
  school : Option Nat
  start_date : Int
  end_date : Int
  is_active : Bool
deriving DecidableEq, Repr

/-- The `update(is_active=False)` bulk update inside `SurveyPeriod.save`
(survey/models.py line 398): every other active period of the same survey —
with no school condition — is deactivated. -/
def SurveyPeriod.deactivateOthers (ps : List SurveyPeriod) (p : SurveyPeriod) :
    List SurveyPeriod :=
  ps.map fun q =>
    if q.survey = p.survey ∧ q.is_active = true ∧ q.pk ≠ p.pk then
      { q with is_active := false }
    else q

/-- The underlying `super().save()`: update the row with this pk if it
exists, otherwise insert it. -/
def SurveyPeriod.dbWrite (ps : List SurveyPeriod) (p : SurveyPeriod) :
    List SurveyPeriod :=
  if ps.any (fun q => q.pk = p.pk) then
    ps.map fun q => if q.pk = p.pk then p else q
  else ps ++ [p]

/-- `SurveyPeriod.save` (survey/models.py lines 395-399): when saving an
active period, first deactivate every other active period of the same
survey, then write the row. -/
def SurveyPeriod.save (ps : List SurveyPeriod) (p : SurveyPeriod) :
    List SurveyPeriod :=
  SurveyPeriod.dbWrite (if p.is_active then SurveyPeriod.deactivateOthers ps p else ps) p

/-- `SurveyPeriod.is_expired` (survey/models.py lines 401-405), with
`timezone.now().date()` passed as `today`. -/
def SurveyPeriod.is_expired (p : SurveyPeriod) (today : Int) : Bool :=
  today > p.end_date

/-! ### Scheduler decision (process_recurring_surveys.py) -/

/-- `survey.periods.order_by('-start_date').first()`: a period with maximal
`start_date` (first occurrence wins on ties). -/
def latestPeriod (ps : List SurveyPeriod) : Option SurveyPeriod :=
  ps.foldl
    (fun acc q =>
      match acc with
      | none => some q
      | some r => if q.start_date > r.start_date then some q else some r)
    none

/-- The reason strings returned by `should_create_new_period`, as a sum type
(the `days_remaining` figure interpolated into the still-active message is
carried as data). -/
inductive SchedReason where
  | noExistingPeriod
  | stillActive (daysRemaining : Int)
  | newWeekStarted
  | waitingForMonday
  | newMonthStarted
  | waitingForFirstOfMonth
  | newQuarterStarted
  | waitingForQuarterStart
  | newAcademicYearStarted
  | waitingForAcademicYearStart
  | unknownFrequency
deriving DecidableEq, Repr

/-- `Command.should_create_new_period(survey, today)`
(process_recurring_surveys.py lines 115-159), with the survey's period rows
and `send_frequency` passed explicitly. -/
def should_create_new_period (periods : List SurveyPeriod)
    (send_frequency : String) (today : PyDate) : Bool × SchedReason :=
  match latestPeriod periods with
  | none => (true, .noExistingPeriod)
  | some latest =>
    if latest.is_expired today.ord = false then
      (false, .stillActive (latest.end_date - today.ord))
    else if send_frequency = FREQ_WEEKLY then
      if pyWeekday today = 0 then (true, .newWeekStarted)
      else (false, .waitingForMonday)
    else if send_frequency = FREQ_MONTHLY then
      if today.day = 1 then (true, .newMonthStarted)
      else (false, .waitingForFirstOfMonth)
    else if send_frequency = FREQ_QUARTERLY then
      if today.day = 1 ∧ ([1, 4, 7, 10] : List Int).contains today.month then
        (true, .newQuarterStarted)
      else (false, .waitingForQuarterStart)
    else if send_frequency = FREQ_YEARLY then
      if today.day = 1 ∧ today.month = 9 then (true, .newAcademicYearStarted)
      else (false, .waitingForAcademicYearStart)
    else (false, .unknownFrequency)

/-- A `Template` row, restricted to the columns the scheduler reads. -/
structure TemplateRow where
  pk : Nat
  send_frequency : String
  type : String
deriving DecidableEq, Repr

/-- The queryset `Template.objects.exclude(send_frequency=FREQ_ONCE)
.filter(type=FOOD)` selecting the surveys the batch run processes
(process_recurring_surveys.py lines 37-41). -/
def recurringSurveys (ts : List TemplateRow) : List TemplateRow :=
  ts.filter fun t => decide (t.send_frequency ≠ FREQ_ONCE) && decide (t.type = FOOD)

/-! ### Distributions and the fan-out (survey/models.py `SurveyDistribution`,
survey/services.py `create_survey_distribution`) -/

/-- One `SurveyDistribution` row, restricted to the columns that determine
identity and the unique constraint.  `student = none` for non-guardian
surveys. -/
structure SurveyDistribution where
  period : Nat
  survey : Nat
  user : Nat
  student : Option Nat
  school : Option Nat
deriving DecidableEq, Repr

/-- The `unique_together [period, user, student]` key of a distribution
(survey/models.py line 441). -/
def SurveyDistribution.key (d : SurveyDistribution) : Nat × Nat × Option Nat :=
  (d.period, d.user, d.student)

/-- `SurveyDistribution.objects.bulk_create(batch, ignore_conflicts=True)`
(survey/services.py line 158): each row of the batch is inserted unless a
row with the same `(period, user, student)` key — already stored or inserted
earlier in the same batch — exists. -/
def bulkCreateIgnoreConflicts (stored batch : List SurveyDistribution) :
    List SurveyDistribution :=
  batch.foldl
    (fun acc d => if acc.any (fun e => e.key = d.key) then acc else acc ++ [d])
    stored

/-- The database state the scheduler mutates: period rows, distribution
rows, and the next fresh primary key. -/
structure SchedState where
  periods : List SurveyPeriod
  distributions : List SurveyDistribution
  nextPk : Nat
deriving Repr

/-- `create_survey_distribution(survey, school, sent_by, start_date)`
(survey/services.py lines 112-160): create an active period (whose save
deactivates other active periods of the survey) and bulk-create one
distribution per `(user, student)` recipient pair, ignoring conflicts.
Recipients are passed explicitly in place of `get_survey_recipients`. -/
def create_survey_distribution (st : SchedState) (survey : Nat)
    (send_frequency : String) (school : Option Nat)
    (recipients : List (Nat × Option Nat)) (start_date : Int) : SchedState :=
  let end_date := calculate_end_date start_date send_frequency
  let period : SurveyPeriod :=
    { pk := st.nextPk, survey := survey, school := school,
      start_date := start_date, end_date := end_date, is_active := true }
  let batch := recipients.map fun r =>
    ({ period := st.nextPk, survey := survey, user := r.1, student := r.2,
       school := school } : SurveyDistribution)
  { periods := SurveyPeriod.save st.periods period,
    distributions := bulkCreateIgnoreConflicts st.distributions batch,
    nextPk := st.nextPk + 1 }

/-- The per-survey body of `Command.handle` for a single school
(process_recurring_surveys.py lines 47-98): consult
`should_create_new_period` on the survey's periods, and on a go-ahead run
`create_survey_distribution` starting today. -/
def processSurveyForSchool (st : SchedState) (survey : Nat)
    (send_frequency : String) (school : Option Nat)
    (recipients : List (Nat × Option Nat)) (today : PyDate) : SchedState :=
  if (should_create_new_period (st.periods.filter fun p => p.survey = survey)
        send_frequency today).1 then
    create_survey_distribution st survey send_frequency school recipients today.ord
  else st

/-- The per-survey body of `Command.handle` for a built-in survey sent to a
list of schools (process_recurring_surveys.py lines 60-94): the decision is
taken once, then the fan-out loops over the schools. -/
def processSurveyRun (st : SchedState) (survey : Nat) (send_frequency : String)
    (schools : List (Option Nat)) (recipients : Option Nat → List (Nat × Option Nat))
    (today : PyDate) : SchedState :=
  if (should_create_new_period (st.periods.filter fun p => p.survey = survey)
        send_frequency today).1 then
    schools.foldl
      (fun s sch =>
        create_survey_distribution s survey send_frequency sch (recipients sch) today.ord)
      st
  else st

/-! ### Template fields (survey/models.py `TemplateField`) -/

/-- A `TemplateField` row, restricted to the columns the claims are about.
`pk = none` means the row is not yet saved; keys are modelled as naturals
(the source generates globally unique random strings). -/
structure TemplateField where
  pk : Option Nat
  key : Nat
  name : String
  type : String
  order : Int
  is_public : Bool
  is_required : Bool
  is_multiple : Bool
deriving DecidableEq, Repr

/-- The order-assignment line of `TemplateField.save` (survey/models.py
lines 288-289): `if not self.order: self.order = template.fields.count() + 1`,
with `existingCount` the field count of the template at save time. -/
def assignOrder (existingCount : Nat) (order : Int) : Int :=
  if order = 0 then (existingCount : Int) + 1 else order

/-- Creating a field through `TemplateFieldForm` + `TemplateField.save`:
the form never sets `order` or `key` (survey/forms.py, `Meta.fields`), so
the new row arrives with the default `order = 0` and `save` appends it with
`order = count + 1` and a fresh key. -/
def createField (fs : List TemplateField) (freshKey : Nat) : List TemplateField :=
  fs ++ [{ pk := some freshKey, key := freshKey, name := "", type := "text",
           order := assignOrder fs.length 0,
           is_public := true, is_required := false, is_multiple := false }]

/-- The loop body of `template_field_delete` (survey/views.py lines 296-298):
a sibling whose order exceeds the deleted field's gets `order -= 1` and is
re-saved, which routes the new value through the `assignOrder` line of
`TemplateField.save` with the template's field count (the deleted row is
still present during the loop). -/
def decrementAfter (totalCount : Nat) (threshold : Int) (g : TemplateField) :
    TemplateField :=
  if g.order > threshold then
    { g with order := assignOrder totalCount (g.order - 1) }
  else g

/-- `template_field_delete` (survey/views.py lines 293-300): look the field
up by key; decrement the order of every sibling whose order is greater
(each re-saved through `TemplateField.save`); then delete the field.  An
unknown key is a 404 and leaves the table unchanged. -/
def deleteField (fs : List TemplateField) (k : Nat) : List TemplateField :=
  match fs.find? (fun f => f.key = k) with
  | none => fs
  | some f => (fs.map (decrementAfter fs.length f.order)).filter fun g => g.key ≠ k

/-- The field table of one template together with the fresh-key source. -/
structure FieldsState where
  fields : List TemplateField
  nextKey : Nat
deriving Repr

/-- One schema-store operation on a template's fields. -/
inductive FieldOp where
  | create
  | delete (k : Nat)
deriving DecidableEq, Repr

def applyFieldOp (st : FieldsState) : FieldOp → FieldsState
  | .create => { fields := createField st.fields st.nextKey, nextKey := st.nextKey + 1 }
  | .delete k => { st with fields := deleteField st.fields k }

/-- Run a sequence of create/delete operations from an empty template. -/
def runFieldOps (ops : List FieldOp) : FieldsState :=
  ops.foldl applyFieldOp { fields := [], nextKey := 0 }

/-! ### Nested-form field save (survey/models.py `TemplateField.save`,
lines 282-298) -/

/-- A `Template` row as touched by `TemplateField.save`: the companion
sub-form templates store.  `parent` is the pk of the owning field
(`Template.parent`, whose reverse accessor is the field's `sub_form`). -/
structure TemplateStoreRow where
  pk : Nat
  name : String
  type : String
  parent : Option Nat
deriving DecidableEq, Repr

/-- `TemplateField.save` restricted to the nested-form aspects
(survey/models.py lines 282-298): `created = not self.pk`; a field of type
`FORM` gets `is_multiple = True`; `super().save()` assigns a pk to a new
row; and only when the row was newly created and has type `FORM` is one
companion `Template` created, named `f"(self.name) - (self.template.name)"`
and linked back through its `parent` field. -/
def TemplateField.saveSubForm (f : TemplateField) (templateName : String)
    (store : List TemplateStoreRow) (freshFieldPk freshTemplatePk : Nat) :
    TemplateField × List TemplateStoreRow :=
  let created := f.pk.isNone
  let f := if f.type = FORM then { f with is_multiple := true } else f
  let f := { f with pk := some (f.pk.getD freshFieldPk) }
  if created ∧ f.type = FORM then
    (f, store ++ [{ pk := freshTemplatePk,
                    name := f.name ++ " - " ++ templateName,
                    type := FOOD, parent := f.pk }])
  else (f, store)

/-! ### Validator context (survey/models.py `Template.build_django_form`,
lines 199-209) -/

/-- The `required` flag of the Django form field built for `field`:
`get_corresponding_django_form_field` passes `required=self.is_required` in
every branch, and `build_django_form` then relaxes it to `False` exactly
when the field is required, not public, and the form is built with
`is_public=True`. -/
def builtFieldRequired (f : TemplateField) (is_public_ctx : Bool) : Bool :=
  let required := f.is_required
  if f.is_required = true ∧ f.is_public = false ∧ is_public_ctx = true then false
  else required

/-! ### Answer persistence (survey/models.py `Template.CustomForm.save` and
`AdditionalField`) -/

/-- A JSON value as stored in `AdditionalField.value` / submitted as
cleaned form data.  A nested-form answer is a list of row objects, each a
list of (field key, value) pairs. -/
inductive JsonValue where
  | str (s : String)
  | num (n : Int)
  | rows (rs : List (List (Nat × JsonValue)))

/-- One `AdditionalField` row (survey/models.py lines 487-511): the answer
node.  `field` is the originating field's key, `value = none` is SQL NULL,
`parent` is the pk of the row-parent attribute. -/
structure AdditionalFieldRow where
  field : Nat
  type : String
  name : String
  value : Option JsonValue
  parent : Option Nat
  row : Int

/-- `Template.CustomForm.save(commit=True, parent)` (survey/models.py lines
113-133) for a `FOOD` template with a ticket: one `AdditionalField` per
field of `o_fields`, with the cleaned value — nulled for `FORM` fields —
and the `parent` argument; the rows are written with
`AdditionalField.objects.bulk_create(rows)`, which inserts the default
`row = 0` and does not run `AdditionalField.save`.  `sub_rows` stays empty
and is never written. -/
def customFormSave (o_fields : List TemplateField)
    (cleaned_data : Nat → Option JsonValue) (parent : Option Nat) :
    List AdditionalFieldRow :=
  o_fields.map fun f =>
    { field := f.key, type := f.type, name := f.name,
      value := if f.type ≠ FORM then cleaned_data f.key else none,
      parent := parent, row := 0 }

/-- `AdditionalField.save` (survey/models.py lines 504-508): when the
attribute has a parent, its `row` ordinal is set to the current number of
sibling attributes of the same parent and field, then the row is inserted.
(The `CustomForm.save` persistence path bypasses this method via
`bulk_create`.) -/
def AdditionalFieldRow.saveOne (store : List AdditionalFieldRow)
    (a : AdditionalFieldRow) : List AdditionalFieldRow :=
  let a :=
    match a.parent with
    | some p =>
      { a with
        row := ((store.filter fun b =>
          b.parent = some p ∧ b.field = a.field).length : Int) }
    | none => a
  store ++ [a]

/-! ### Operation sequences over periods -/

/-- One operation that touches `SurveyPeriod` rows: a direct
`SurveyPeriod.save` (manual creation/edit of a period — every Django write
path for this model goes through `save`), or one scheduler run for one
survey. -/
inductive SurveyOp where
  | doSave (p : SurveyPeriod)
  | schedulerRun (survey : Nat) (send_frequency : String)
      (schools : List (Option Nat))
      (recipients : Option Nat → List (Nat × Option Nat)) (today : PyDate)

def applySurveyOp (st : SchedState) : SurveyOp → SchedState
  | .doSave p => { st with periods := SurveyPeriod.save st.periods p }
  | .schedulerRun sv f schools recips today =>
      processSurveyRun st sv f schools recips today

/-- Run a sequence of period operations from an empty database. -/
def runSurveyOps (ops : List SurveyOp) : SchedState :=
  ops.foldl applySurveyOp ⟨[], [], 0⟩

/-- The number of active periods of one survey (across all schools). -/
def countActiveSurvey (sv : Nat) (ps : List SurveyPeriod) : Nat :=
  ps.countP fun q => decide (q.survey = sv) && q.is_active

/-- The number of active periods of one (survey, school) pair. -/
def countActivePair (sv : Nat) (sch : Option Nat) (ps : List SurveyPeriod) : Nat :=
  ps.countP fun q => decide (q.survey = sv) && decide (q.school = sch) && q.is_active

/-- The list `[1, 2, …, n]` of integers: the dense order values a template
with `n` fields must carry. -/
def intRange1 : Nat → List Int
  | 0 => []
  | n + 1 => intRange1 n ++ [(n : Int) + 1]

/-- The order values of a field table. -/
def fieldOrders (fs : List TemplateField) : List Int :=
  fs.map fun f => f.order

/-! ## Claim C7: the availability calculator -/

/-- C7: `next_available_at` returns `now` when the last submission time is
absent, and otherwise `last + Δ(frequency)` with weekly = 7 days,
monthly = 30, quarterly = 90, yearly = 365 and a 30-day default for
once/unknown frequencies; `is_available_now` is true iff the last time is
absent or `now` has reached `next_available_at`; and `calculate_end_date`
uses the same Δ table, with 30 days for `once`. -/
theorem c7_availability_calculator :
    ∀ (now t s : Int) (freq : String) (last : Option Int),
      next_available_at none freq now = now ∧
      next_available_at (some t) FREQ_WEEKLY now = t + 7 ∧
      next_available_at (some t) FREQ_MONTHLY now = t + 30 ∧
      next_available_at (some t) FREQ_QUARTERLY now = t + 90 ∧
      next_available_at (some t) FREQ_YEARLY now = t + 365 ∧
      (freq ∉ [FREQ_WEEKLY, FREQ_MONTHLY, FREQ_QUARTERLY, FREQ_YEARLY] →
        next_available_at (some t) freq now = t + 30) ∧
      (is_available_now last freq now = true ↔
        last = none ∨ now ≥ next_available_at last freq now) ∧
      calculate_end_date s FREQ_ONCE = s + 30 ∧
      calculate_end_date s FREQ_WEEKLY = s + 7 ∧
      calculate_end_date s FREQ_MONTHLY = s + 30 ∧
      calculate_end_date s FREQ_QUARTERLY = s + 90 ∧
      calculate_end_date s FREQ_YEARLY = s + 365 := by
  intro now t s freq last
  refine ⟨rfl, rfl, rfl, rfl, rfl, ?_, ?_, rfl, rfl, rfl, rfl, rfl⟩
  · intro h
    simp only [FREQ_WEEKLY, FREQ_MONTHLY, FREQ_QUARTERLY, FREQ_YEARLY,
      List.mem_cons, List.not_mem_nil, or_false, not_or] at h
    obtain ⟨h1, h2, h3, h4⟩ := h
    by_cases hE : freq = ""
    · subst hE; rfl
    · simp only [next_available_at, FREQ_TO_DELTA, if_neg hE,
        if_neg h1, if_neg h2, if_neg h3, if_neg h4, Option.getD_none]
  · cases last with
    | none => simp [is_available_now]
    | some u =>
      simp [is_available_now]

/-- Witness for C7 at the frequency "once" (absent from the Δ table) and a
concrete weekly availability check. -/
theorem c7_witness :
    next_available_at (some 5) "once" 0 = 5 + 30 ∧
    (is_available_now (some 5) "weekly" 20 = true ↔
      (some 5 : Option Int) = none ∨ (20 : Int) ≥ next_available_at (some 5) "weekly" 20) :=
  ⟨(c7_availability_calculator 0 5 0 "once" (some 5)).2.2.2.2.2.1 (by decide),
   (c7_availability_calculator 20 5 0 "weekly" (some 5)).2.2.2.2.2.2.1⟩

/-! ## Claim C10: required-field relaxation in submitter-facing context -/

/-- C10: when the form is built with `is_public=True`, a field that is
required but not visible to the submitter becomes optional, and every other
field keeps its declared required flag. -/
theorem c10_required_relaxation :
    ∀ f : TemplateField,
      (f.is_required = true ∧ f.is_public = false →
        builtFieldRequired f true = false) ∧
      (¬(f.is_required = true ∧ f.is_public = false) →
        builtFieldRequired f true = f.is_required) := by
  intro f
  constructor
  · rintro ⟨h1, h2⟩
    simp [builtFieldRequired, h1, h2]
  · intro h
    unfold builtFieldRequired
    rw [if_neg]
    intro hc
    exact h ⟨hc.1, hc.2.1⟩

/-- Witness for C10: a required private field is relaxed, a required public
field is not. -/
theorem c10_witness :
    builtFieldRequired
      { pk := none, key := 0, name := "a", type := "text", order := 1,
        is_public := false, is_required := true, is_multiple := false } true = false ∧
    builtFieldRequired
      { pk := none, key := 1, name := "b", type := "text", order := 2,
        is_public := true, is_required := true, is_multiple := false } true = true := by
  constructor
  · exact (c10_required_relaxation
      { pk := none, key := 0, name := "a", type := "text", order := 1,
        is_public := false, is_required := true, is_multiple := false }).1 ⟨rfl, rfl⟩
  · exact (c10_required_relaxation
      { pk := none, key := 1, name := "b", type := "text", order := 2,
        is_public := true, is_required := true, is_multiple := false }).2 (by simp)

/-! ## Claim C3: weekly template with no prior period, run on a Tuesday -/

/-- Counterexample to C3 as stated: on Tuesday 2026-10-13 (ordinal 739902,
`weekday() = 1`), a weekly survey with no prior period gets `True` from
`should_create_new_period` — the code opens the first period immediately
instead of waiting for Monday. -/
theorem c3_counterexample :
    pyWeekday ⟨739902, 13, 10⟩ = 1 ∧
    (should_create_new_period [] FREQ_WEEKLY ⟨739902, 13, 10⟩).1 = true := by
  exact ⟨by decide, rfl⟩

/-- C3 (amended): for a weekly template with no prior Period,
`should_create_new_period` on a Tuesday returns true with the
"no existing period" reason — the first period opens immediately; the
wait-for-Monday alignment applies only once an existing period has
expired. -/
theorem c3_amended_first_period_opens_immediately :
    ∀ today : PyDate, pyWeekday today = 1 →
      should_create_new_period [] FREQ_WEEKLY today =
        (true, SchedReason.noExistingPeriod) := by
  intro today _
  rfl

/-- Witness for the amended C3 on Tuesday 2026-10-13. -/
theorem c3_amended_witness :
    pyWeekday ⟨739902, 13, 10⟩ = 1 ∧
    should_create_new_period [] FREQ_WEEKLY ⟨739902, 13, 10⟩ =
      (true, SchedReason.noExistingPeriod) :=
  ⟨by decide, c3_amended_first_period_opens_immediately ⟨739902, 13, 10⟩ (by decide)⟩

/-! ## Claim C9: nested-form field invariant -/

/-- C9: a saved nested-form field always has its multiple-entries flag
forced to true; its first save creates exactly one companion child Template
named `"<field name> - <parent template name>"` linked back through the
`parent` (sub_form) reference; re-saving creates no further Template. -/
theorem c9_nested_form_field_save :
    ∀ (f : TemplateField) (tname : String) (store : List TemplateStoreRow)
      (fpk tpk : Nat),
      (f.type = FORM →
        ((TemplateField.saveSubForm f tname store fpk tpk).1).is_multiple = true) ∧
      (f.pk = none → f.type = FORM →
        (TemplateField.saveSubForm f tname store fpk tpk).2 =
          store ++ [{ pk := tpk, name := f.name ++ " - " ++ tname,
                      type := FOOD, parent := some fpk }]) ∧
      (∀ p, f.pk = some p →
        (TemplateField.saveSubForm f tname store fpk tpk).2 = store) := by
  intro f tname store fpk tpk
  refine ⟨?_, ?_, ?_⟩
  · intro hform
    simp only [TemplateField.saveSubForm, hform, if_pos]
    split <;> rfl
  · intro hpk hform
    simp [TemplateField.saveSubForm, hpk, hform]
  · intro p hpk
    simp [TemplateField.saveSubForm, hpk]

/-- Witness for C9: saving a fresh "contacts" nested-form field inside
template "intake" creates exactly the template "contacts - intake"; saving
an already-saved nested-form field creates none. -/
theorem c9_witness :
    ((TemplateField.saveSubForm
        ⟨none, 5, "contacts", "form", 0, true, false, false⟩
        "intake" [] 7 9).1).is_multiple = true ∧
    (TemplateField.saveSubForm
        ⟨none, 5, "contacts", "form", 0, true, false, false⟩
        "intake" [] 7 9).2 =
      [{ pk := 9, name := "contacts - intake", type := FOOD, parent := some 7 }] ∧
    (TemplateField.saveSubForm
        ⟨some 3, 6, "more", "form", 0, true, false, true⟩
        "intake" [] 7 9).2 = [] := by
  refine ⟨(c9_nested_form_field_save
      ⟨none, 5, "contacts", "form", 0, true, false, false⟩ "intake" [] 7 9).1 rfl,
    ?_,
    (c9_nested_form_field_save
      ⟨some 3, 6, "more", "form", 0, true, false, true⟩ "intake" [] 7 9).2.2 3 rfl⟩
  have h := (c9_nested_form_field_save
      ⟨none, 5, "contacts", "form", 0, true, false, false⟩ "intake" [] 7 9).2.1 rfl rfl
  rw [h]
  rfl

/-! ## Claim C1: round-trip of nested answers -/

/-- C1 fails on the code: `CustomForm.save` is the only persistence path
(api/serializers.py line 942 calls it with `parent=None`), and for a
template whose nested-form field "contacts" was submitted with two rows it
writes exactly one `AdditionalField` — value NULL, no parent, row 0 — and
no parent-row or child attributes at all: `sub_rows` is never filled, the
nested `bulk_create` is commented out, and `bulk_create` bypasses
`AdditionalField.save`, so no attribute tree exists to walk and the
submitted rows cannot be reconstructed. -/
theorem c1_nested_rows_not_persisted :
    customFormSave
        [{ pk := some 1, key := 1, name := "contacts", type := FORM, order := 1,
           is_public := true, is_required := true, is_multiple := true }]
        (fun k => if k = 1 then
            some (JsonValue.rows
              [[(2, JsonValue.str "A"), (3, JsonValue.str "1")],
               [(2, JsonValue.str "B"), (3, JsonValue.str "2")]])
          else none) none =
      [{ field := 1, type := FORM, name := "contacts", value := none,
         parent := none, row := 0 }] ∧
    (customFormSave
        [{ pk := some 1, key := 1, name := "contacts", type := FORM, order := 1,
           is_public := true, is_required := true, is_multiple := true }]
        (fun k => if k = 1 then
            some (JsonValue.rows
              [[(2, JsonValue.str "A"), (3, JsonValue.str "1")],
               [(2, JsonValue.str "B"), (3, JsonValue.str "2")]])
          else none) none).filter (fun a => a.parent.isSome) = [] := by
  exact ⟨rfl, rfl⟩

/-! ## Helper lemmas on the scheduler decision -/

theorem shouldCreate_of_latest_none (ps : List SurveyPeriod) (freq : String)
    (today : PyDate) (h : latestPeriod ps = none) :
    should_create_new_period ps freq today = (true, SchedReason.noExistingPeriod) := by
  unfold should_create_new_period
  rw [h]

theorem shouldCreate_of_not_expired (ps : List SurveyPeriod) (freq : String)
    (today : PyDate) (p : SurveyPeriod) (h : latestPeriod ps = some p)
    (h2 : ¬ today.ord > p.end_date) :
    should_create_new_period ps freq today =
      (false, SchedReason.stillActive (p.end_date - today.ord)) := by
  unfold should_create_new_period
  rw [h]
  simp [SurveyPeriod.is_expired, h2]

theorem shouldCreate_of_expired (ps : List SurveyPeriod) (freq : String)
    (today : PyDate) (p : SurveyPeriod) (h : latestPeriod ps = some p)
    (h2 : today.ord > p.end_date) :
    should_create_new_period ps freq today =
      (if freq = FREQ_WEEKLY then
        if pyWeekday today = 0 then (true, SchedReason.newWeekStarted)
        else (false, SchedReason.waitingForMonday)
      else if freq = FREQ_MONTHLY then
        if today.day = 1 then (true, SchedReason.newMonthStarted)
        else (false, SchedReason.waitingForFirstOfMonth)
      else if freq = FREQ_QUARTERLY then
        if today.day = 1 ∧ ([1, 4, 7, 10] : List Int).contains today.month then
          (true, SchedReason.newQuarterStarted)
        else (false, SchedReason.waitingForQuarterStart)
      else if freq = FREQ_YEARLY then
        if today.day = 1 ∧ today.month = 9 then (true, SchedReason.newAcademicYearStarted)
        else (false, SchedReason.waitingForAcademicYearStart)
      else (false, SchedReason.unknownFrequency)) := by
  unfold should_create_new_period
  rw [h]
  have hx : p.is_expired today.ord = true := by
    simp [SurveyPeriod.is_expired, h2]
  simp [hx]

/-! ## Claim C6: scheduler transition rule -/

/-- C6: for any period state and day, the decision function opens when no
Period exists; reports a no-op carrying the remaining days when the latest
Period is unexpired; when expired it opens exactly on calendar alignment
(weekly: Monday; monthly: the 1st; quarterly: the 1st of Jan/Apr/Jul/Oct;
yearly: September 1); and the batch queryset never contains a
once-frequency template. -/
theorem c6_scheduler_transition_rule :
    ∀ (ps : List SurveyPeriod) (freq : String) (today : PyDate)
      (ts : List TemplateRow),
      (latestPeriod ps = none →
        should_create_new_period ps freq today = (true, SchedReason.noExistingPeriod)) ∧
      (∀ p, latestPeriod ps = some p → ¬ today.ord > p.end_date →
        should_create_new_period ps freq today =
          (false, SchedReason.stillActive (p.end_date - today.ord))) ∧
      (∀ p, latestPeriod ps = some p → today.ord > p.end_date →
        ((should_create_new_period ps FREQ_WEEKLY today).1 = true ↔
          pyWeekday today = 0) ∧
        ((should_create_new_period ps FREQ_MONTHLY today).1 = true ↔
          today.day = 1) ∧
        ((should_create_new_period ps FREQ_QUARTERLY today).1 = true ↔
          today.day = 1 ∧ (today.month = 1 ∨ today.month = 4 ∨
            today.month = 7 ∨ today.month = 10)) ∧
        ((should_create_new_period ps FREQ_YEARLY today).1 = true ↔
          today.day = 1 ∧ today.month = 9)) ∧
      (∀ t ∈ recurringSurveys ts, t.send_frequency ≠ FREQ_ONCE) := by
  intro ps freq today ts
  refine ⟨shouldCreate_of_latest_none ps freq today,
    fun p h h2 => shouldCreate_of_not_expired ps freq today p h h2, ?_, ?_⟩
  · intro p h h2
    refine ⟨?_, ?_, ?_, ?_⟩
    · rw [shouldCreate_of_expired ps FREQ_WEEKLY today p h h2, if_pos rfl]
      by_cases hw : pyWeekday today = 0 <;> simp [hw]
    · rw [shouldCreate_of_expired ps FREQ_MONTHLY today p h h2,
        if_neg (by decide), if_pos rfl]
      by_cases hd : today.day = 1 <;> simp [hd]
    · rw [shouldCreate_of_expired ps FREQ_QUARTERLY today p h h2,
        if_neg (by decide), if_neg (by decide), if_pos rfl]
      have hmem : (([1, 4, 7, 10] : List Int).contains today.month = true) ↔
          (today.month = 1 ∨ today.month = 4 ∨ today.month = 7 ∨ today.month = 10) := by
        simp [List.contains]
      by_cases hq : today.day = 1 ∧ ([1, 4, 7, 10] : List Int).contains today.month
      · rw [if_pos hq]
        exact ⟨fun _ => ⟨hq.1, hmem.mp hq.2⟩, fun _ => rfl⟩
      · rw [if_neg hq]
        refine ⟨fun hc => absurd hc (by decide), fun hc => absurd ⟨hc.1, hmem.mpr hc.2⟩ hq⟩
    · rw [shouldCreate_of_expired ps FREQ_YEARLY today p h h2,
        if_neg (by decide), if_neg (by decide), if_neg (by decide), if_pos rfl]
      by_cases hy : today.day = 1 ∧ today.month = 9 <;> simp [hy]
  · intro t ht
    have := List.of_mem_filter ht
    simp only [Bool.and_eq_true, decide_eq_true_eq] at this
    exact this.1

/-- Witness for C6: with one expired period, the weekly gate on a Monday
and the no-period case at an unknown frequency. -/
theorem c6_witness :
    ((should_create_new_period [⟨0, 1, none, 100, 107, true⟩] FREQ_WEEKLY
        ⟨739901, 12, 10⟩).1 = true ↔ pyWeekday ⟨739901, 12, 10⟩ = 0) ∧
    should_create_new_period [] "other" ⟨739901, 12, 10⟩ =
      (true, SchedReason.noExistingPeriod) := by
  refine ⟨(((c6_scheduler_transition_rule [⟨0, 1, none, 100, 107, true⟩] FREQ_WEEKLY
      ⟨739901, 12, 10⟩ []).2.2.1 ⟨0, 1, none, 100, 107, true⟩ rfl (by decide)).1), ?_⟩
  exact (c6_scheduler_transition_rule [] "other" ⟨739901, 12, 10⟩ []).1 rfl

/-! ## Helper lemmas on period creation and the fan-out -/

theorem lt_calculate_end_date (s : Int) (f : String) : s < calculate_end_date s f := by
  unfold calculate_end_date
  split
  · omega
  · split
    · omega
    · split
      · omega
      · split
        · omega
        · split <;> omega

theorem savePeriod_empty (p : SurveyPeriod) : SurveyPeriod.save [] p = [p] := by
  simp [SurveyPeriod.save, SurveyPeriod.dbWrite, SurveyPeriod.deactivateOthers]

theorem bulkCreate_of_fresh :
    ∀ (batch stored : List SurveyDistribution),
      (∀ d ∈ batch, ∀ e ∈ stored, e.key ≠ d.key) →
      (batch.map SurveyDistribution.key).Nodup →
      bulkCreateIgnoreConflicts stored batch = stored ++ batch := by
  intro batch
  induction batch with
  | nil => intro stored _ _; simp [bulkCreateIgnoreConflicts]
  | cons d rest ih =>
    intro stored hfresh hnodup
    have hany : (stored.any fun e => decide (e.key = d.key)) = false := by
      rw [List.any_eq_false]
      intro e he
      simp only [decide_eq_true_eq]
      exact fun hk => hfresh d (by simp) e he hk
    have hkey : d.key ∉ rest.map SurveyDistribution.key := by
      have := hnodup
      simp only [List.map_cons, List.nodup_cons] at this
      exact this.1
    have hfresh2 : ∀ x ∈ rest, ∀ e ∈ stored ++ [d], e.key ≠ x.key := by
      intro x hx e he
      rcases List.mem_append.mp he with h | h
      · exact hfresh x (List.mem_cons_of_mem d hx) e h
      · rcases List.mem_singleton.mp h with rfl
        intro hk
        exact hkey (hk ▸ List.mem_map_of_mem SurveyDistribution.key hx)
    have hnodup2 : (rest.map SurveyDistribution.key).Nodup := by
      have := hnodup
      simp only [List.map_cons, List.nodup_cons] at this
      exact this.2
    have step := ih (stored ++ [d]) hfresh2 hnodup2
    unfold bulkCreateIgnoreConflicts at step ⊢
    simp only [List.foldl_cons, hany, Bool.false_eq_true, if_false]
    rw [step]
    simp

/-! ## Claim C2: idempotent fan-out -/

/-- C2: starting from an empty database, running the scheduler's open-period
step twice for the same (survey, school, day) produces exactly one Period
and exactly one Distribution per distinct (recipient, subject) pair — and
the second run is a no-op, never a duplication. -/
theorem c2_idempotent_fan_out :
    ∀ (survey : Nat) (freq : String) (school : Option Nat)
      (recipients : List (Nat × Option Nat)) (today : PyDate),
      recipients.Nodup →
      (processSurveyForSchool ⟨[], [], 0⟩ survey freq school recipients today).periods.length
          = 1 ∧
      (processSurveyForSchool ⟨[], [], 0⟩ survey freq school recipients today).distributions.length
          = recipients.length ∧
      processSurveyForSchool
          (processSurveyForSchool ⟨[], [], 0⟩ survey freq school recipients today)
          survey freq school recipients today =
        processSurveyForSchool ⟨[], [], 0⟩ survey freq school recipients today := by
  intro survey freq school recipients today hnd
  have hinj : Function.Injective
      (fun r : Nat × Option Nat => ((0 : Nat), r.1, r.2)) := by
    rintro ⟨a1, a2⟩ ⟨b1, b2⟩ h
    simp only [Prod.mk.injEq, true_and] at h
    simp [h.1, h.2]
  have hbatch : ((recipients.map fun r =>
      ({ period := 0, survey := survey, user := r.1, student := r.2,
         school := school } : SurveyDistribution)).map SurveyDistribution.key).Nodup := by
    rw [List.map_map]
    exact hnd.map hinj
  set P : SurveyPeriod :=
    { pk := 0, survey := survey, school := school, start_date := today.ord,
      end_date := calculate_end_date today.ord freq, is_active := true } with hP
  have hs1 : processSurveyForSchool ⟨[], [], 0⟩ survey freq school recipients today =
      { periods := [P],
        distributions := recipients.map fun r =>
          { period := 0, survey := survey, user := r.1, student := r.2,
            school := school },
        nextPk := 1 } := by
    unfold processSurveyForSchool
    rw [List.filter_nil,
      if_pos (show (should_create_new_period [] freq today).1 = true from rfl)]
    simp only [create_survey_distribution]
    rw [savePeriod_empty,
      bulkCreate_of_fresh _ [] (by intro d _ e he; cases he) hbatch]
    rw [List.nil_append]
  refine ⟨by rw [hs1]; rfl, by rw [hs1]; simp, ?_⟩
  rw [hs1]
  unfold processSurveyForSchool
  have hfil : (List.filter (fun p => decide (p.survey = survey)) [P]) = [P] := by
    simp [hP]
  have hlt : ¬ today.ord > P.end_date := by
    rw [hP]
    have := lt_calculate_end_date today.ord freq
    simp only []
    omega
  simp only []
  rw [hfil, shouldCreate_of_not_expired [P] freq today P rfl hlt]
  simp

/-- Witness for C2 with two concrete recipients. -/
theorem c2_witness :
    (processSurveyForSchool ⟨[], [], 0⟩ 5 "weekly" (some 3) [(1, some 10), (2, none)]
        ⟨739901, 12, 10⟩).periods.length = 1 ∧
    (processSurveyForSchool ⟨[], [], 0⟩ 5 "weekly" (some 3) [(1, some 10), (2, none)]
        ⟨739901, 12, 10⟩).distributions.length = 2 ∧
    processSurveyForSchool
        (processSurveyForSchool ⟨[], [], 0⟩ 5 "weekly" (some 3) [(1, some 10), (2, none)]
          ⟨739901, 12, 10⟩)
        5 "weekly" (some 3) [(1, some 10), (2, none)] ⟨739901, 12, 10⟩ =
      processSurveyForSchool ⟨[], [], 0⟩ 5 "weekly" (some 3) [(1, some 10), (2, none)]
        ⟨739901, 12, 10⟩ :=
  c2_idempotent_fan_out 5 "weekly" (some 3) [(1, some 10), (2, none)]
    ⟨739901, 12, 10⟩ (by decide)

/-! ## Helper lemmas on `SurveyPeriod.save` -/

theorem deactivateOthers_pk_of_mem (ps : List SurveyPeriod) (p r : SurveyPeriod)
    (hr : r ∈ SurveyPeriod.deactivateOthers ps p) : ∃ s ∈ ps, r.pk = s.pk := by
  obtain ⟨s, hs, hsr⟩ := List.mem_map.mp hr
  refine ⟨s, hs, ?_⟩
  rw [← hsr]
  split <;> rfl

theorem mem_dbWrite_pk (l : List SurveyPeriod) (p q : SurveyPeriod)
    (hq : q ∈ SurveyPeriod.dbWrite l p) : q.pk = p.pk ∨ ∃ r ∈ l, q.pk = r.pk := by
  unfold SurveyPeriod.dbWrite at hq
  by_cases hany : (l.any fun r => decide (r.pk = p.pk)) = true
  · rw [if_pos hany] at hq
    obtain ⟨r, hr, hqr⟩ := List.mem_map.mp hq
    by_cases hrpk : r.pk = p.pk
    · rw [if_pos hrpk] at hqr
      left
      rw [← hqr]
    · rw [if_neg hrpk] at hqr
      subst hqr
      exact Or.inr ⟨r, hr, rfl⟩
  · rw [if_neg hany] at hq
    rcases List.mem_append.mp hq with h | h
    · exact Or.inr ⟨q, h, rfl⟩
    · rcases List.mem_singleton.mp h with rfl
      exact Or.inl rfl

theorem mem_dbWrite_of_pk_ne (l : List SurveyPeriod) (p q : SurveyPeriod)
    (hq : q ∈ SurveyPeriod.dbWrite l p) (hpk : q.pk ≠ p.pk) : q ∈ l := by
  unfold SurveyPeriod.dbWrite at hq
  by_cases hany : (l.any fun r => decide (r.pk = p.pk)) = true
  · rw [if_pos hany] at hq
    obtain ⟨r, hr, hqr⟩ := List.mem_map.mp hq
    by_cases hrpk : r.pk = p.pk
    · rw [if_pos hrpk] at hqr
      exact absurd (hqr ▸ rfl : q.pk = p.pk) hpk
    · rw [if_neg hrpk] at hqr
      exact hqr ▸ hr
  · rw [if_neg hany] at hq
    rcases List.mem_append.mp hq with h | h
    · exact h
    · rcases List.mem_singleton.mp h with rfl
      exact absurd rfl hpk

theorem mem_save_pk (ps : List SurveyPeriod) (p q : SurveyPeriod)
    (hq : q ∈ SurveyPeriod.save ps p) : q.pk = p.pk ∨ ∃ r ∈ ps, q.pk = r.pk := by
  unfold SurveyPeriod.save at hq
  by_cases hact : p.is_active = true
  · rw [if_pos hact] at hq
    rcases mem_dbWrite_pk _ p q hq with h | ⟨r, hr, hqr⟩
    · exact Or.inl h
    · obtain ⟨s, hs, hrs⟩ := deactivateOthers_pk_of_mem ps p r hr
      exact Or.inr ⟨s, hs, hqr.trans hrs⟩
  · rw [if_neg hact] at hq
    exact mem_dbWrite_pk ps p q hq

theorem mem_save_inactive (ps : List SurveyPeriod) (p q : SurveyPeriod)
    (hp : p.is_active = true) (hq : q ∈ SurveyPeriod.save ps p)
    (hpk : q.pk ≠ p.pk) (hsv : q.survey = p.survey) : q.is_active = false := by
  unfold SurveyPeriod.save at hq
  rw [if_pos hp] at hq
  have hmem := mem_dbWrite_of_pk_ne _ p q hq hpk
  obtain ⟨r, hr, hqr⟩ := List.mem_map.mp hmem
  by_cases hcond : r.survey = p.survey ∧ r.is_active = true ∧ r.pk ≠ p.pk
  · rw [if_pos hcond] at hqr
    rw [← hqr]
  · rw [if_neg hcond] at hqr
    subst hqr
    cases hact : r.is_active with
    | false => rfl
    | true => exact absurd ⟨hsv, hact, hpk⟩ hcond

theorem countActiveSurvey_save_fresh (ps : List SurveyPeriod) (p : SurveyPeriod)
    (hp : p.is_active = true) (hfresh : ∀ q ∈ ps, q.pk ≠ p.pk) :
    countActiveSurvey p.survey (SurveyPeriod.save ps p) = 1 := by
  unfold SurveyPeriod.save
  rw [if_pos hp]
  have hpkl : ∀ r ∈ SurveyPeriod.deactivateOthers ps p, r.pk ≠ p.pk := by
    intro r hr
    obtain ⟨s, hs, hrs⟩ := deactivateOthers_pk_of_mem ps p r hr
    rw [hrs]
    exact hfresh s hs
  have hany : ((SurveyPeriod.deactivateOthers ps p).any fun r =>
      decide (r.pk = p.pk)) = false := by
    rw [List.any_eq_false]
    intro r hr
    simp only [decide_eq_true_eq]
    exact hpkl r hr
  unfold SurveyPeriod.dbWrite
  rw [if_neg (by simp [hany])]
  unfold countActiveSurvey
  rw [List.countP_append]
  have h0 : (SurveyPeriod.deactivateOthers ps p).countP
      (fun q => decide (q.survey = p.survey) && q.is_active) = 0 := by
    rw [List.countP_eq_zero]
    intro r hr
    obtain ⟨s, hs, hsr⟩ := List.mem_map.mp hr
    by_cases hcond : s.survey = p.survey ∧ s.is_active = true ∧ s.pk ≠ p.pk
    · rw [if_pos hcond] at hsr
      rw [← hsr]
      simp
    · rw [if_neg hcond] at hsr
      subst hsr
      simp only [Bool.and_eq_true, decide_eq_true_eq, not_and]
      intro hsv hact
      exact hcond ⟨hsv, hact, hfresh s hs⟩
  rw [h0]
  simp [hp]

theorem create_wf_active (st : SchedState) (survey : Nat) (freq : String)
    (school : Option Nat) (recips : List (Nat × Option Nat)) (start : Int)
    (hwf : ∀ q ∈ st.periods, q.pk < st.nextPk) :
    countActiveSurvey survey
        (create_survey_distribution st survey freq school recips start).periods = 1 ∧
    ∀ q ∈ (create_survey_distribution st survey freq school recips start).periods,
      q.pk < (create_survey_distribution st survey freq school recips start).nextPk := by
  simp only [create_survey_distribution]
  constructor
  · exact countActiveSurvey_save_fresh st.periods
      { pk := st.nextPk, survey := survey, school := school, start_date := start,
        end_date := calculate_end_date start freq, is_active := true } rfl
      (fun q hq h => by have := hwf q hq; simp only [] at h; omega)
  · intro q hq
    rcases mem_save_pk st.periods _ q hq with h | ⟨r, hr, hqr⟩
    · simp only [] at h
      omega
    · have := hwf r hr
      omega

theorem fold_create_wf_active (survey : Nat) (freq : String) (start : Int)
    (recips : Option Nat → List (Nat × Option Nat)) :
    ∀ (schools : List (Option Nat)) (st : SchedState),
      (∀ q ∈ st.periods, q.pk < st.nextPk) →
      ((∀ q ∈ (schools.foldl (fun s sch =>
            create_survey_distribution s survey freq sch (recips sch) start) st).periods,
          q.pk < (schools.foldl (fun s sch =>
            create_survey_distribution s survey freq sch (recips sch) start) st).nextPk) ∧
       (schools ≠ [] →
        countActiveSurvey survey (schools.foldl (fun s sch =>
          create_survey_distribution s survey freq sch (recips sch) start) st).periods = 1)) := by
  intro schools
  induction schools with
  | nil => exact fun st hwf => ⟨hwf, fun h => absurd rfl h⟩
  | cons x xs ih =>
    intro st hwf
    have hcr := create_wf_active st survey freq x (recips x) start hwf
    have hstep := ih (create_survey_distribution st survey freq x (recips x) start) hcr.2
    rw [List.foldl_cons]
    cases xs with
    | nil => exact ⟨by simpa using hcr.2, fun _ => by simpa using hcr.1⟩
    | cons y ys => exact ⟨hstep.1, fun _ => hstep.2 (by simp)⟩

/-! ## Claim C4: deactivation ignores the organization -/

/-- C4: saving an active Period deactivates every other active Period of
the same Template regardless of school (the filter matches on the survey
only), so a scheduler run that opens periods for one built-in template
across several schools leaves exactly one active Period — at most one
school retains one. -/
theorem c4_cross_school_deactivation :
    (∀ (ps : List SurveyPeriod) (p q : SurveyPeriod),
      p.is_active = true → q ∈ SurveyPeriod.save ps p → q.pk ≠ p.pk →
      q.survey = p.survey → q.is_active = false) ∧
    (∀ (st : SchedState) (survey : Nat) (freq : String)
      (schools : List (Option Nat)) (recips : Option Nat → List (Nat × Option Nat))
      (today : PyDate),
      (∀ q ∈ st.periods, q.pk < st.nextPk) →
      schools ≠ [] →
      (should_create_new_period (st.periods.filter fun p => p.survey = survey)
        freq today).1 = true →
      countActiveSurvey survey
        (processSurveyRun st survey freq schools recips today).periods = 1) := by
  constructor
  · exact mem_save_inactive
  · intro st survey freq schools recips today hwf hne hsc
    unfold processSurveyRun
    rw [if_pos hsc]
    exact (fold_create_wf_active survey freq today.ord recips schools st hwf).2 hne

/-- Witness for C4: one survey sent to two schools from an empty database —
only one active period remains; and a concrete cross-school deactivation. -/
theorem c4_witness :
    ((⟨0, 7, some 1, 0, 7, false⟩ : SurveyPeriod).is_active = false) ∧
    countActiveSurvey 7 (processSurveyRun ⟨[], [], 0⟩ 7 "weekly"
      [some 1, some 2] (fun _ => []) ⟨739901, 12, 10⟩).periods = 1 := by
  constructor
  · exact c4_cross_school_deactivation.1 [⟨0, 7, some 1, 0, 7, true⟩]
      ⟨1, 7, some 2, 10, 17, true⟩ ⟨0, 7, some 1, 0, 7, false⟩ rfl (by decide)
      (by decide) rfl
  · exact c4_cross_school_deactivation.2 ⟨[], [], 0⟩ 7 "weekly" [some 1, some 2]
      (fun _ => []) ⟨739901, 12, 10⟩ (fun q hq => absurd hq (List.not_mem_nil q))
      (by decide) rfl

/-! ## Helper lemmas for the at-most-one-active invariant -/

theorem deact_map_pk (ps : List SurveyPeriod) (p : SurveyPeriod) :
    ((SurveyPeriod.deactivateOthers ps p).map fun q => q.pk) = ps.map fun q => q.pk := by
  unfold SurveyPeriod.deactivateOthers
  rw [List.map_map]
  apply List.map_congr_left
  intro a _
  simp only [Function.comp_apply]
  split <;> rfl

theorem dbWrite_pk_nodup (l : List SurveyPeriod) (p : SurveyPeriod)
    (h : (l.map fun q => q.pk).Nodup) :
    ((SurveyPeriod.dbWrite l p).map fun q => q.pk).Nodup := by
  unfold SurveyPeriod.dbWrite
  by_cases hany : (l.any fun r => decide (r.pk = p.pk)) = true
  · rw [if_pos hany, List.map_map]
    have heq : (l.map ((fun q => q.pk) ∘ fun q => if q.pk = p.pk then p else q)) =
        l.map fun q => q.pk := by
      apply List.map_congr_left
      intro a _
      simp only [Function.comp_apply]
      split
      next h' => exact h'.symm
      next => rfl
    rw [heq]
    exact h
  · rw [if_neg hany, List.map_append]
    simp only [List.map_cons, List.map_nil]
    rw [List.nodup_append]
    refine ⟨h, List.nodup_singleton _, ?_⟩
    intro a ha hb
    rcases List.mem_singleton.mp hb with rfl
    rw [Bool.not_eq_true, List.any_eq_false] at hany
    obtain ⟨r, hr, hrpk⟩ := List.mem_map.mp ha
    exact hany r hr (by simp [hrpk])

theorem save_pk_nodup (ps : List SurveyPeriod) (p : SurveyPeriod)
    (h : (ps.map fun q => q.pk).Nodup) :
    ((SurveyPeriod.save ps p).map fun q => q.pk).Nodup := by
  unfold SurveyPeriod.save
  by_cases hact : p.is_active = true
  · rw [if_pos hact]
    exact dbWrite_pk_nodup _ p (by rw [deact_map_pk]; exact h)
  · rw [if_neg hact]
    exact dbWrite_pk_nodup ps p h

theorem countP_pk_le_one :
    ∀ (ps : List SurveyPeriod) (x : Nat), ((ps.map fun q => q.pk).Nodup) →
      ps.countP (fun q => decide (q.pk = x)) ≤ 1 := by
  intro ps
  induction ps with
  | nil => intro x _; simp
  | cons a rest ih =>
    intro x hnd
    rw [List.map_cons, List.nodup_cons] at hnd
    rw [List.countP_cons]
    by_cases hax : a.pk = x
    · have h0 : rest.countP (fun q => decide (q.pk = x)) = 0 := by
        rw [List.countP_eq_zero]
        intro r hr
        simp only [decide_eq_true_eq]
        intro hrx
        exact hnd.1 (by
          rw [hax, ← hrx]
          exact List.mem_map_of_mem (fun q => q.pk) hr)
      simp [hax, h0]
    · have h2 : (decide (a.pk = x)) = false := by simp [hax]
      rw [h2]
      simp only [Bool.false_eq_true, if_false]
      have := ih x hnd.2
      omega

theorem countP_save_le (ps : List SurveyPeriod) (p : SurveyPeriod)
    (A : SurveyPeriod → Bool) (hp : A p = false)
    (hquiet : ∀ q : SurveyPeriod, A { q with is_active := false } = false) :
    (SurveyPeriod.save ps p).countP A ≤ ps.countP A := by
  have hdb : ∀ l : List SurveyPeriod,
      (SurveyPeriod.dbWrite l p).countP A ≤ l.countP A := by
    intro l
    unfold SurveyPeriod.dbWrite
    by_cases hany : (l.any fun r => decide (r.pk = p.pk)) = true
    · rw [if_pos hany, List.countP_map]
      apply List.countP_mono_left
      intro r _ hr
      simp only [Function.comp_apply] at hr
      by_cases hpk : r.pk = p.pk
      · rw [if_pos hpk, hp] at hr
        exact absurd hr (by simp)
      · rwa [if_neg hpk] at hr
    · rw [if_neg hany, List.countP_append]
      have h1 : List.countP A [p] = 0 := by
        simp [List.countP_cons, hp]
      rw [h1]
      omega
  have hdeact : (SurveyPeriod.deactivateOthers ps p).countP A ≤ ps.countP A := by
    unfold SurveyPeriod.deactivateOthers
    rw [List.countP_map]
    apply List.countP_mono_left
    intro s _ hs
    simp only [Function.comp_apply] at hs
    by_cases hcond : s.survey = p.survey ∧ s.is_active = true ∧ s.pk ≠ p.pk
    · rw [if_pos hcond, hquiet s] at hs
      exact absurd hs (by simp)
    · rwa [if_neg hcond] at hs
  unfold SurveyPeriod.save
  by_cases hact : p.is_active = true
  · rw [if_pos hact]
    exact le_trans (hdb _) hdeact
  · rw [if_neg hact]
    exact hdb ps

theorem countActive_save_self_le_one (ps : List SurveyPeriod) (p : SurveyPeriod)
    (sv : Nat) (hact : p.is_active = true) (hsv : sv = p.survey)
    (hnd : (ps.map fun q => q.pk).Nodup) :
    countActiveSurvey sv (SurveyPeriod.save ps p) ≤ 1 := by
  unfold countActiveSurvey
  have step1 : (SurveyPeriod.save ps p).countP
        (fun q => decide (q.survey = sv) && q.is_active) ≤
      (SurveyPeriod.save ps p).countP fun q => decide (q.pk = p.pk) := by
    apply List.countP_mono_left
    intro q hq hA
    simp only [Bool.and_eq_true, decide_eq_true_eq] at hA
    simp only [decide_eq_true_eq]
    by_contra hpk
    have hinact := mem_save_inactive ps p q hact hq hpk (hsv ▸ hA.1)
    rw [hinact] at hA
    exact absurd hA.2 (by simp)
  exact le_trans step1 (countP_pk_le_one (SurveyPeriod.save ps p) p.pk
    (save_pk_nodup ps p hnd))

theorem countActiveSurvey_save_le_one (ps : List SurveyPeriod) (p : SurveyPeriod)
    (sv : Nat) (hnd : (ps.map fun q => q.pk).Nodup)
    (hle : countActiveSurvey sv ps ≤ 1) :
    countActiveSurvey sv (SurveyPeriod.save ps p) ≤ 1 := by
  by_cases hsv : sv = p.survey
  · by_cases hact : p.is_active = true
    · exact countActive_save_self_le_one ps p sv hact hsv hnd
    · unfold countActiveSurvey at hle ⊢
      refine le_trans (countP_save_le ps p _ ?_ ?_) hle
      · rw [Bool.not_eq_true] at hact
        simp [hact]
      · intro q
        simp
  · unfold countActiveSurvey at hle ⊢
    refine le_trans (countP_save_le ps p _ ?_ ?_) hle
    · have hne : p.survey ≠ sv := fun h => hsv h.symm
      simp [hne]
    · intro q
      simp

theorem fold_create_preserves (survey : Nat) (freq : String) (start : Int)
    (recips : Option Nat → List (Nat × Option Nat)) :
    ∀ (schools : List (Option Nat)) (st : SchedState),
      (st.periods.map fun q => q.pk).Nodup →
      (∀ sv, countActiveSurvey sv st.periods ≤ 1) →
      (((schools.foldl (fun s sch =>
          create_survey_distribution s survey freq sch (recips sch) start) st).periods.map
            fun q => q.pk).Nodup ∧
       ∀ sv, countActiveSurvey sv (schools.foldl (fun s sch =>
          create_survey_distribution s survey freq sch (recips sch) start) st).periods ≤ 1) := by
  intro schools
  induction schools with
  | nil => exact fun st h1 h2 => ⟨h1, h2⟩
  | cons x xs ih =>
    intro st h1 h2
    rw [List.foldl_cons]
    refine ih (create_survey_distribution st survey freq x (recips x) start) ?_ ?_
    · simp only [create_survey_distribution]
      exact save_pk_nodup st.periods _ h1
    · intro sv
      simp only [create_survey_distribution]
      exact countActiveSurvey_save_le_one st.periods _ sv h1 (h2 sv)

theorem applyOp_preserves (st : SchedState) (op : SurveyOp)
    (h1 : (st.periods.map fun q => q.pk).Nodup)
    (h2 : ∀ sv, countActiveSurvey sv st.periods ≤ 1) :
    ((applySurveyOp st op).periods.map fun q => q.pk).Nodup ∧
    ∀ sv, countActiveSurvey sv (applySurveyOp st op).periods ≤ 1 := by
  cases op with
  | doSave p =>
    exact ⟨save_pk_nodup st.periods p h1,
      fun sv => countActiveSurvey_save_le_one st.periods p sv h1 (h2 sv)⟩
  | schedulerRun survey freq schools recips today =>
    simp only [applySurveyOp]
    unfold processSurveyRun
    split
    · exact fold_create_preserves survey freq today.ord recips schools st h1 h2
    · exact ⟨h1, h2⟩

/-! ## Claim C5: at most one active period per (Template, organization) -/

/-- C5: after any sequence of period saves and scheduler runs starting from
an empty database, every (survey, school) pair has at most one active
Period — activating a period deactivates the prior active one. -/
theorem c5_at_most_one_active_per_pair :
    ∀ (ops : List SurveyOp) (survey : Nat) (school : Option Nat),
      countActivePair survey school (runSurveyOps ops).periods ≤ 1 := by
  have main : ∀ (ops : List SurveyOp) (st : SchedState),
      (st.periods.map fun q => q.pk).Nodup →
      (∀ sv, countActiveSurvey sv st.periods ≤ 1) →
      (((ops.foldl applySurveyOp st).periods.map fun q => q.pk).Nodup ∧
       ∀ sv, countActiveSurvey sv (ops.foldl applySurveyOp st).periods ≤ 1) := by
    intro ops
    induction ops with
    | nil => exact fun st hA hB => ⟨hA, hB⟩
    | cons op rest ih =>
      intro st hA hB
      rw [List.foldl_cons]
      have h := applyOp_preserves st op hA hB
      exact ih _ h.1 h.2
  intro ops survey school
  have h := (main ops ⟨[], [], 0⟩ (by simp) (fun sv => by
    simp [countActiveSurvey])).2 survey
  refine le_trans ?_ h
  unfold countActivePair countActiveSurvey runSurveyOps
  apply List.countP_mono_left
  intro q _ hq
  simp only [Bool.and_eq_true, decide_eq_true_eq] at hq ⊢
  exact ⟨hq.1.1, hq.2⟩

/-! ## Helper lemmas for order density -/

theorem length_intRange1 : ∀ n, (intRange1 n).length = n := by
  intro n
  induction n with
  | zero => rfl
  | succ m ih => simp [intRange1, ih]

theorem mem_intRange1 : ∀ (n : Nat) (o : Int), o ∈ intRange1 n ↔ 1 ≤ o ∧ o ≤ (n : Int) := by
  intro n
  induction n with
  | zero =>
    intro o
    simp only [intRange1, List.not_mem_nil, false_iff, not_and, Nat.cast_zero]
    omega
  | succ m ih =>
    intro o
    simp only [intRange1, List.mem_append, List.mem_singleton, ih]
    push_cast
    omega

theorem intRange1_succ_back : ∀ n : Nat, 1 ≤ n →
    intRange1 n = intRange1 (n - 1) ++ [(n : Int)] := by
  intro n hn
  cases n with
  | zero => omega
  | succ m => simp [intRange1]

theorem erase_map_dec (j : Int) (hj1 : 1 ≤ j) :
    ∀ n : Nat, j ≤ (n : Int) →
      ((intRange1 n).erase j).map (fun o => if o > j then o - 1 else o) =
        intRange1 (n - 1) := by
  intro n
  induction n with
  | zero => intro h; exfalso; simp at h; omega
  | succ m ih =>
    intro hjn
    by_cases hj : j ≤ (m : Int)
    · have hmem : j ∈ intRange1 m := (mem_intRange1 m j).mpr ⟨hj1, hj⟩
      rw [show intRange1 (m + 1) = intRange1 m ++ [(m : Int) + 1] from rfl]
      rw [List.erase_append_left _ hmem, List.map_append, ih hj]
      have hdec : ((([(m : Int) + 1]).map fun o => if o > j then o - 1 else o)) =
          [(m : Int)] := by
        simp only [List.map_cons, List.map_nil]
        rw [if_pos (by omega)]
        norm_num
      rw [hdec]
      have hm1 : 1 ≤ m := by omega
      rw [← intRange1_succ_back m hm1]
      simp
    · have hmem : j ∉ intRange1 m := by
        rw [mem_intRange1]
        omega
      have hj' : j = (m : Int) + 1 := by push_cast at hjn ⊢; omega
      rw [show intRange1 (m + 1) = intRange1 m ++ [(m : Int) + 1] from rfl]
      rw [List.erase_append_right _ hmem, hj', List.erase_cons_head, List.append_nil]
      have : ((intRange1 m).map fun o => if o > (m : Int) + 1 then o - 1 else o) =
          (intRange1 m).map id := by
        apply List.map_congr_left
        intro a ha
        rw [mem_intRange1] at ha
        simp only [id]
        rw [if_neg (by omega)]
      rw [this, List.map_id]
      simp

theorem decrementAfter_key (n : Nat) (j : Int) (g : TemplateField) :
    (decrementAfter n j g).key = g.key := by
  unfold decrementAfter
  split <;> rfl

theorem decrementAfter_order (n : Nat) (j : Int) (g : TemplateField)
    (hj : 1 ≤ j) :
    (decrementAfter n j g).order = if g.order > j then g.order - 1 else g.order := by
  unfold decrementAfter assignOrder
  by_cases h : g.order > j
  · rw [if_pos h, if_pos h]
    simp only []
    rw [if_neg (by omega)]
  · rw [if_neg h, if_neg h]

theorem createField_orders (fs : List TemplateField) (k : Nat)
    (hperm : List.Perm (fieldOrders fs) (intRange1 fs.length)) :
    List.Perm (fieldOrders (createField fs k)) (intRange1 (fs.length + 1)) := by
  unfold createField fieldOrders at *
  rw [List.map_append]
  simp only [List.map_cons, List.map_nil]
  have ha : assignOrder fs.length 0 = (fs.length : Int) + 1 := by
    simp [assignOrder]
  simp only [ha]
  rw [show intRange1 (fs.length + 1) = intRange1 fs.length ++ [(fs.length : Int) + 1]
    from rfl]
  exact hperm.append_right _

theorem deleteField_keys_sublist (fs : List TemplateField) (k : Nat) :
    (((deleteField fs k).map fun g => g.key)).Sublist (fs.map fun g => g.key) := by
  unfold deleteField
  split
  · exact List.Sublist.refl _
  next f _ =>
    have h2 : ((fs.map (decrementAfter fs.length f.order)).map fun g => g.key) =
        fs.map fun g => g.key := by
      rw [List.map_map]
      apply List.map_congr_left
      intro a _
      simp only [Function.comp_apply]
      rw [decrementAfter_key]
    have h1 : ((((fs.map (decrementAfter fs.length f.order)).filter
          fun g => g.key ≠ k)).map fun g => g.key).Sublist
        ((fs.map (decrementAfter fs.length f.order)).map fun g => g.key) :=
      (List.filter_sublist _).map _
    rw [h2] at h1
    exact h1

theorem deleteField_orders (fs : List TemplateField) (k : Nat) (f : TemplateField)
    (hfind : fs.find? (fun g => g.key = k) = some f)
    (hkeys : (fs.map fun g => g.key).Nodup)
    (hperm : List.Perm (fieldOrders fs) (intRange1 fs.length)) :
    List.Perm (fieldOrders (deleteField fs k)) (intRange1 (fs.length - 1)) := by
  have hfmem := List.mem_of_find?_eq_some hfind
  have hfkey : f.key = k := by simpa using List.find?_some hfind
  have hbound : ∀ g ∈ fs, 1 ≤ g.order ∧ g.order ≤ (fs.length : Int) := by
    intro g hg
    rw [← mem_intRange1]
    exact hperm.mem_iff.mp (List.mem_map_of_mem (fun x => x.order) hg)
  have hj := hbound f hfmem
  have hdel : deleteField fs k =
      (fs.map (decrementAfter fs.length f.order)).filter fun g => g.key ≠ k := by
    unfold deleteField
    rw [hfind]
  rw [hdel]
  obtain ⟨l₁, l₂, rfl⟩ := List.append_of_mem hfmem
  rw [List.map_append, List.map_cons] at hkeys
  rw [List.nodup_append] at hkeys
  obtain ⟨hnd1, hnd2, hdisj⟩ := hkeys
  have hk1 : k ∉ l₁.map fun g => g.key := by
    intro hk
    apply hdisj hk
    rw [hfkey]
    exact List.mem_cons_self _ _
  have hk2 : k ∉ l₂.map fun g => g.key := by
    rw [List.nodup_cons] at hnd2
    have := hnd2.1
    rw [hfkey] at this
    exact this
  rw [List.map_append, List.map_cons, List.filter_append, List.filter_cons]
  have hpa : (decide ((decrementAfter (l₁ ++ f :: l₂).length f.order f).key ≠ k)) =
      false := by
    simp [decrementAfter_key, hfkey]
  rw [hpa]
  simp only [Bool.false_eq_true, if_false]
  have hfil : ∀ l : List TemplateField, k ∉ (l.map fun g => g.key) →
      ((l.map (decrementAfter (l₁ ++ f :: l₂).length f.order)).filter
        fun g => decide (g.key ≠ k)) =
      l.map (decrementAfter (l₁ ++ f :: l₂).length f.order) := by
    intro l hkl
    rw [List.filter_eq_self]
    intro a ha
    obtain ⟨s, hs, rfl⟩ := List.mem_map.mp ha
    rw [decrementAfter_key]
    simp only [decide_eq_true_eq]
    intro heq
    exact hkl (heq ▸ List.mem_map_of_mem (fun g => g.key) hs)
  rw [hfil l₁ hk1, hfil l₂ hk2]
  unfold fieldOrders
  rw [List.map_append, List.map_map, List.map_map]
  have hcomp : ∀ l : List TemplateField,
      (l.map ((fun g : TemplateField => g.order) ∘
        decrementAfter (l₁ ++ f :: l₂).length f.order)) =
      (l.map fun g => g.order).map fun o => if o > f.order then o - 1 else o := by
    intro l
    rw [List.map_map]
    apply List.map_congr_left
    intro a _
    simp only [Function.comp_apply]
    rw [decrementAfter_order _ _ _ hj.1]
  rw [hcomp l₁, hcomp l₂]
  rw [← List.map_append]
  have heq : fieldOrders (l₁ ++ f :: l₂) =
      (l₁.map fun g => g.order) ++ f.order :: (l₂.map fun g => g.order) := by
    unfold fieldOrders
    rw [List.map_append, List.map_cons]
  rw [heq] at hperm
  have h1 : List.Perm
      (f.order :: ((l₁.map fun g => g.order) ++ (l₂.map fun g => g.order)))
      (intRange1 (l₁ ++ f :: l₂).length) :=
    (List.perm_middle.symm).trans hperm
  have hperm2 := (List.cons_perm_iff_perm_erase.mp h1).2
  have hmapped := hperm2.map fun o => if o > f.order then o - 1 else o
  rw [erase_map_dec f.order hj.1 (l₁ ++ f :: l₂).length hj.2] at hmapped
  exact hmapped

theorem applyFieldOp_preserves (st : FieldsState) (op : FieldOp)
    (h1 : List.Perm (fieldOrders st.fields) (intRange1 st.fields.length))
    (h2 : (st.fields.map fun g => g.key).Nodup)
    (h3 : ∀ g ∈ st.fields, g.key < st.nextKey) :
    List.Perm (fieldOrders (applyFieldOp st op).fields)
        (intRange1 (applyFieldOp st op).fields.length) ∧
    ((applyFieldOp st op).fields.map fun g => g.key).Nodup ∧
    ∀ g ∈ (applyFieldOp st op).fields, g.key < (applyFieldOp st op).nextKey := by
  cases op with
  | create =>
    refine ⟨?_, ?_, ?_⟩
    · simp only [applyFieldOp]
      have hlen : (createField st.fields st.nextKey).length = st.fields.length + 1 := by
        simp [createField]
      rw [hlen]
      exact createField_orders st.fields st.nextKey h1
    · simp only [applyFieldOp, createField]
      rw [List.map_append]
      simp only [List.map_cons, List.map_nil]
      rw [List.nodup_append]
      refine ⟨h2, List.nodup_singleton _, ?_⟩
      intro a ha hb
      rcases List.mem_singleton.mp hb with rfl
      obtain ⟨s, hs, hsk⟩ := List.mem_map.mp ha
      have := h3 s hs
      omega
    · intro g hg
      simp only [applyFieldOp, createField] at hg ⊢
      rcases List.mem_append.mp hg with h | h
      · have := h3 g h
        omega
      · rcases List.mem_singleton.mp h with rfl
        simp
  | delete k =>
    refine ⟨?_, ?_, ?_⟩
    · simp only [applyFieldOp]
      cases hfind : st.fields.find? (fun g => g.key = k) with
      | none =>
        have hid : deleteField st.fields k = st.fields := by
          unfold deleteField
          rw [hfind]
        rw [hid]
        exact h1
      | some f =>
        have hp := deleteField_orders st.fields k f hfind h2 h1
        have hlen : (deleteField st.fields k).length = st.fields.length - 1 := by
          have hl := hp.length_eq
          rw [length_intRange1] at hl
          have hm : (fieldOrders (deleteField st.fields k)).length =
              (deleteField st.fields k).length := List.length_map _ _
          omega
        rw [hlen]
        exact hp
    · exact h2.sublist (deleteField_keys_sublist st.fields k)
    · intro g hg
      simp only [applyFieldOp] at hg ⊢
      have hkm : g.key ∈ st.fields.map fun x => x.key :=
        (deleteField_keys_sublist st.fields k).subset
          (List.mem_map_of_mem (fun x => x.key) hg)
      obtain ⟨s, hs, hsk⟩ := List.mem_map.mp hkm
      have := h3 s hs
      omega

/-! ## Claim C8: order density -/

/-- C8: after any sequence of field create and delete operations on a
template (creation appends `order = count + 1`, deletion decrements every
greater sibling order), the multiset of `order` values is exactly
`{1..N}` — a permutation of `[1, …, N]` with no gaps or duplicates. -/
theorem c8_order_density :
    ∀ ops : List FieldOp,
      List.Perm (fieldOrders (runFieldOps ops).fields)
        (intRange1 (runFieldOps ops).fields.length) := by
  have main : ∀ (ops : List FieldOp) (st : FieldsState),
      List.Perm (fieldOrders st.fields) (intRange1 st.fields.length) →
      ((st.fields.map fun g => g.key).Nodup) →
      (∀ g ∈ st.fields, g.key < st.nextKey) →
      (List.Perm (fieldOrders (ops.foldl applyFieldOp st).fields)
          (intRange1 (ops.foldl applyFieldOp st).fields.length) ∧
        (((ops.foldl applyFieldOp st).fields.map fun g => g.key).Nodup) ∧
        ∀ g ∈ (ops.foldl applyFieldOp st).fields,
          g.key < (ops.foldl applyFieldOp st).nextKey) := by
    intro ops
    induction ops with
    | nil => exact fun st hA hB hC => ⟨hA, hB, hC⟩
    | cons op rest ih =>
      intro st hA hB hC
      rw [List.foldl_cons]
      have h := applyFieldOp_preserves st op hA hB hC
      exact ih _ h.1 h.2.1 h.2.2
  intro ops
  exact (main ops ⟨[], 0⟩ (List.Perm.refl _) List.nodup_nil
    (fun g hg => absurd hg (List.not_mem_nil g))).1

end Rifid
